import Mathlib

/-!
Verification development for the `GeometryAnalyzer` kernel of the
Geometry_Calculater repository (src/main.py).  The Python kernel is shallowly
embedded: Python floats are idealized as real numbers, dictionaries as
insertion-ordered association lists, and an operation that can raise an
uncaught exception is modelled as an `Option`-valued function returning
`none` on the raising executions.
-/

namespace GA

/-- A 3-component vector / coordinate triple, as produced by
`np.array(self.points[name])` in src/main.py (coordinates are stored as three
floats, idealized here as reals). -/
@[ext]
structure Vec3 where
  x : ℝ
  y : ℝ
  z : ℝ

/-- `vector_add` (src/main.py line 70): componentwise `np.add`. -/
def vector_add (a b : Vec3) : Vec3 := ⟨a.x + b.x, a.y + b.y, a.z + b.z⟩

/-- `vector_subtract` (src/main.py line 74): componentwise `np.subtract`. -/
def vector_subtract (a b : Vec3) : Vec3 := ⟨a.x - b.x, a.y - b.y, a.z - b.z⟩

/-- `vector_dot` (src/main.py line 78): `np.dot` on 3-vectors. -/
def vector_dot (a b : Vec3) : ℝ := a.x * b.x + a.y * b.y + a.z * b.z

/-- `vector_cross` (src/main.py line 82): `np.cross` on 3-vectors. -/
def vector_cross (a b : Vec3) : Vec3 :=
  ⟨a.y * b.z - a.z * b.y, a.z * b.x - a.x * b.z, a.x * b.y - a.y * b.x⟩

/-- `vector_magnitude` (src/main.py line 86): `np.linalg.norm`, the Euclidean
norm, i.e. the square root of the sum of the squared components. -/
noncomputable def vector_magnitude (a : Vec3) : ℝ :=
  Real.sqrt (a.x ^ 2 + a.y ^ 2 + a.z ^ 2)

/-- `vector_angle` (src/main.py lines 90-101), in degrees (the analyzer always
uses the default `degrees=True`): `None` when either vector has zero
magnitude, otherwise `np.degrees(np.arccos(np.clip(dot/(mag1*mag2), -1, 1)))`. -/
noncomputable def vector_angle (v1 v2 : Vec3) : Option ℝ :=
  let dot := vector_dot v1 v2
  let mag1 := vector_magnitude v1
  let mag2 := vector_magnitude v2
  if mag1 = 0 ∨ mag2 = 0 then none
  else
    let cos_theta := dot / (mag1 * mag2)
    let clipped := max (-1) (min 1 cos_theta)
    some (Real.arccos clipped * (180 / Real.pi))

lemma vector_magnitude_nonneg (a : Vec3) : 0 ≤ vector_magnitude a :=
  Real.sqrt_nonneg _

lemma vector_magnitude_eq_zero_iff (a : Vec3) :
    vector_magnitude a = 0 ↔ a = ⟨0, 0, 0⟩ := by
  unfold vector_magnitude
  rw [Real.sqrt_eq_zero']
  constructor
  · intro h
    have hx := sq_nonneg a.x
    have hy := sq_nonneg a.y
    have hz := sq_nonneg a.z
    have hx0 : a.x = 0 := by nlinarith
    have hy0 : a.y = 0 := by nlinarith
    have hz0 : a.z = 0 := by nlinarith
    cases a
    simp_all
  · intro h
    subst h
    norm_num

/-- Claim C7: `vector_angle` returns the undefined sentinel (`none`, Python
`None`) exactly when at least one input is the zero vector; on any pair of
nonzero vectors it returns a defined value, and every defined value lies in
the interval [0, 180] degrees (the cosine is clamped to [-1, 1] before
`arccos`, so `arccos` is only ever applied inside its domain). -/
theorem vector_angle_spec (v1 v2 : Vec3) :
    (vector_angle v1 v2 = none ↔ (v1 = ⟨0, 0, 0⟩ ∨ v2 = ⟨0, 0, 0⟩)) ∧
    (v1 ≠ ⟨0, 0, 0⟩ → v2 ≠ ⟨0, 0, 0⟩ → ∃ θ, vector_angle v1 v2 = some θ) ∧
    (∀ θ, vector_angle v1 v2 = some θ → 0 ≤ θ ∧ θ ≤ 180) := by
  have hz : (vector_magnitude v1 = 0 ∨ vector_magnitude v2 = 0) ↔
      (v1 = ⟨0, 0, 0⟩ ∨ v2 = ⟨0, 0, 0⟩) := by
    rw [vector_magnitude_eq_zero_iff, vector_magnitude_eq_zero_iff]
  refine ⟨?_, ?_, ?_⟩
  · unfold vector_angle
    by_cases h : vector_magnitude v1 = 0 ∨ vector_magnitude v2 = 0
    · simp only [if_pos h]
      simpa using hz.mp h
    · simp only [if_neg h]
      constructor
      · intro hc
        exact absurd hc (Option.some_ne_none _)
      · intro hc
        exact absurd (hz.mpr hc) h
  · intro h1 h2
    unfold vector_angle
    have h : ¬ (vector_magnitude v1 = 0 ∨ vector_magnitude v2 = 0) := by
      intro hc
      rcases hz.mp hc with hc1 | hc2
      · exact h1 hc1
      · exact h2 hc2
    simp only [if_neg h]
    exact ⟨_, rfl⟩
  · intro θ hθ
    unfold vector_angle at hθ
    by_cases h : vector_magnitude v1 = 0 ∨ vector_magnitude v2 = 0
    · rw [if_pos h] at hθ
      exact absurd hθ (by simp)
    · simp only [if_neg h, Option.some.injEq] at hθ
      subst hθ
      constructor
      · have ha := Real.arccos_nonneg (max (-1)
          (min 1 (vector_dot v1 v2 / (vector_magnitude v1 * vector_magnitude v2))))
        have hd : (0:ℝ) ≤ 180 / Real.pi := by positivity
        exact mul_nonneg ha hd
      · have ha := Real.arccos_le_pi (max (-1)
          (min 1 (vector_dot v1 v2 / (vector_magnitude v1 * vector_magnitude v2))))
        have hd : (0:ℝ) < 180 / Real.pi := by positivity
        calc Real.arccos _ * (180 / Real.pi)
            ≤ Real.pi * (180 / Real.pi) := by
              exact mul_le_mul_of_nonneg_right ha (le_of_lt hd)
          _ = 180 := by
              field_simp

/-- A segment record, the value stored in the `segments` dict
(src/main.py line 15): `(起点, 终点, 颜色, 线型)` = (start, end, color,
linestyle).  The Python tuple field `end` is a Lean keyword, so it is named
`endp` here. -/
structure Seg where
  start : String
  endp : String
  color : String
  linestyle : String

/-- An entry of `vectors_to_display` (src/main.py line 16): a dict with keys
`start`, `end`, `color`, `label` (only the fields read by the embedded
operations are modelled). -/
structure VecDisp where
  start : String
  endp : String
  color : String
  label : String

/-- An entry of `circles_and_spheres` (src/main.py lines 334-339): a dict with
keys `center`, `radius`, `color`, `linestyle`. -/
structure Circle where
  center : String
  radius : ℝ
  color : String
  linestyle : String

/-- The mutable state of a `GeometryAnalyzer` (src/main.py lines 13-22).
Python dicts are insertion-ordered, so they are modelled as association lists
(appending on fresh-key insertion).  The GUI-only fields `interaction_mode`,
`selected_points` and `functions` are not touched by any embedded operation
and are omitted. -/
structure State where
  points : List (String × Vec3)
  segments : List (String × Seg)
  vectors_to_display : List VecDisp
  circles_and_spheres : List (String × Circle)

/-- Python dict assignment `d[k] = v`: replaces in place when the key exists,
otherwise appends at the end (insertion order). -/
def dictInsert {α : Type} (l : List (String × α)) (k : String) (v : α) :
    List (String × α) :=
  if (l.lookup k).isSome then
    l.map (fun p => if p.1 = k then (k, v) else p)
  else l ++ [(k, v)]

/-- A Python float as produced by `float(...)`: a finite double (idealized as
a real), an infinity, or a NaN. -/
inductive PyFloat where
  | val (r : ℝ)
  | inf
  | ninf
  | nan

/-- `true` exactly on finite Python floats. -/
def PyFloat.isFinite : PyFloat → Bool
  | .val _ => true
  | _ => false

/-- The outcome of `float(sp.sympify(e).evalf())` for one coordinate text `e`
(src/main.py lines 31-33): either a Python float — possibly non-finite, e.g.
`e = "oo"` gives `inf` and `e = "nan"` gives `nan` — or a raised exception,
e.g. `e = "1/0"` sympifies to `zoo`, whose `float()` conversion raises
`TypeError` (caught by `add_point`'s `except` clause). -/
inductive CoordEval where
  | ok (v : PyFloat)
  | exn

/-- `add_point` (src/main.py lines 24-38), with each coordinate argument
given as the outcome of its sympify/evalf/float pipeline.  Returns the
success flag and the resulting points dict (the human-readable message of the
source is presentation-only and omitted).  Note the source has no finiteness
check: any successfully converted float, finite or not, is stored. -/
def add_point (points : List (String × (PyFloat × PyFloat × PyFloat)))
    (name : String) (x y z : CoordEval) :
    Bool × List (String × (PyFloat × PyFloat × PyFloat)) :=
  if (points.lookup name).isSome then (false, points)
  else
    match x, y, z with
    | .ok xv, .ok yv, .ok zv => (true, points ++ [(name, (xv, yv, zv))])
    | _, _, _ => (false, points)

/-- `add_point` as invoked by the construction engine with already-numeric
finite coordinates (src/main.py lines 256, 286, 311): for a Python float
argument `v`, `float(sp.sympify(v).evalf()) = v` and nothing raises, so the
call reduces to the duplicate-name check followed by dict insertion of the
three values. -/
def add_point_numeric (st : State) (name : String) (v : Vec3) : Bool × State :=
  if (st.points.lookup name).isSome then (false, st)
  else (true, { st with points := st.points ++ [(name, v)] })

/-- `add_segment` (src/main.py lines 50-59): rejects when either endpoint is
absent, derives the segment name `start ++ "_" ++ end`, rejects on collision,
otherwise stores the segment record. -/
def add_segment (st : State) (start endp color linestyle : String) :
    Bool × State :=
  if (st.points.lookup start).isNone ∨ (st.points.lookup endp).isNone then
    (false, st)
  else
    let seg_name := start ++ "_" ++ endp
    if (st.segments.lookup seg_name).isSome then (false, st)
    else
      (true, { st with
        segments := st.segments ++ [(seg_name, ⟨start, endp, color, linestyle⟩)] })

/-- `get_vector` (src/main.py lines 61-67): `None` when either named point is
absent, otherwise end-coordinates minus start-coordinates. -/
def get_vector (st : State) (start_point end_point : String) : Option Vec3 :=
  match st.points.lookup start_point, st.points.lookup end_point with
  | some s, some e => some (vector_subtract e s)
  | _, _ => none

/-- `clear_temp_points` (src/main.py lines 40-48): collects the point names
with prefix `temp_`, deletes each from the points dict, and filters the
displayed-vector list down to those whose start and end both lack the
prefix.  Segments and circles are untouched. -/
def clear_temp_points (st : State) : State :=
  let temp_point_names :=
    (st.points.map Prod.fst).filter (fun n => n.startsWith "temp_")
  { st with
    points := temp_point_names.foldl
      (fun ps n => ps.eraseP (fun p => p.1 == n)) st.points,
    vectors_to_display := st.vectors_to_display.filter
      (fun vec => !(vec.start.startsWith "temp_" || vec.endp.startsWith "temp_")) }

/-- `create_perpendicular` (src/main.py lines 228-260).  `none` models the
uncaught `KeyError` raised when the base segment's endpoints are missing from
the points dict; `some (false, st)` is the guarded "点或线段不存在" failure;
on success a new endpoint `P + (-dy, dx)` (carrying P's z) is added via
`add_point` and a dashed segment via `add_segment` (their return flags are
ignored by the source), and the call reports success.  The binder `pfx`
stands for the source parameter `result_name_prefix`, and `timestamp` for
`int(time.time() * 1000)`. -/
def create_perpendicular (st : State) (point_name base_segment_name pfx : String)
    (timestamp : Nat) : Option (Bool × State) :=
  match st.points.lookup point_name, st.segments.lookup base_segment_name with
  | some p0, some seg =>
    match st.points.lookup seg.start, st.points.lookup seg.endp with
    | some p1, some p2 =>
      let dx := p2.x - p1.x
      let dy := p2.y - p1.y
      let end_point_name := pfx ++ "_end_" ++ toString timestamp
      let st1 := (add_point_numeric st end_point_name
        ⟨p0.x + (-dy), p0.y + dx, p0.z⟩).2
      let st2 := (add_segment st1 point_name end_point_name "#FF00FF" "dashed").2
      some (true, st2)
    | _, _ => none
  | _, _ => some (false, st)

/-- `create_parallel` (src/main.py lines 262-290): identical to
`create_perpendicular` but with direction `(dx, dy)` instead of `(-dy, dx)`
and color `#00AAFF`. -/
def create_parallel (st : State) (point_name base_segment_name pfx : String)
    (timestamp : Nat) : Option (Bool × State) :=
  match st.points.lookup point_name, st.segments.lookup base_segment_name with
  | some p0, some seg =>
    match st.points.lookup seg.start, st.points.lookup seg.endp with
    | some p1, some p2 =>
      let dx := p2.x - p1.x
      let dy := p2.y - p1.y
      let end_point_name := pfx ++ "_end_" ++ toString timestamp
      let st1 := (add_point_numeric st end_point_name
        ⟨p0.x + dx, p0.y + dy, p0.z⟩).2
      let st2 := (add_segment st1 point_name end_point_name "#00AAFF" "dashed").2
      some (true, st2)
    | _, _ => none
  | _, _ => some (false, st)

/-- `create_midpoint` (src/main.py lines 292-313): fails when the segment is
absent, raises (`none`) when an endpoint is dangling, otherwise adds (via
`add_point`, return flag ignored) the componentwise mean of the endpoints
under the name `pfx ++ "_" ++ segment_name ++ "_" ++ timestamp`. -/
noncomputable def create_midpoint (st : State) (segment_name pfx : String) (timestamp : Nat) :
    Option (Bool × State) :=
  match st.segments.lookup segment_name with
  | none => some (false, st)
  | some seg =>
    match st.points.lookup seg.start, st.points.lookup seg.endp with
    | some p1, some p2 =>
      let mid_point_name := pfx ++ "_" ++ segment_name ++ "_" ++ toString timestamp
      let st1 := (add_point_numeric st mid_point_name
        ⟨(p1.x + p2.x) / 2, (p1.y + p2.y) / 2, (p1.z + p2.z) / 2⟩).2
      some (true, st1)
    | _, _ => none

/-- `create_circle_or_sphere` (src/main.py lines 315-341): fails when the
center point or the radius segment is absent, raises (`none`) when the radius
segment's endpoints are dangling, otherwise stores a circle record carrying
the center name and the radius snapshot `length(R)`; no point and no segment
are added. -/
noncomputable def create_circle_or_sphere (st : State)
    (center_point radius_segment pfx : String) (timestamp : Nat) :
    Option (Bool × State) :=
  match st.points.lookup center_point, st.segments.lookup radius_segment with
  | some _, some seg =>
    match st.points.lookup seg.start, st.points.lookup seg.endp with
    | some p1, some p2 =>
      let radius := Real.sqrt
        ((p2.x - p1.x) ^ 2 + (p2.y - p1.y) ^ 2 + (p2.z - p1.z) ^ 2)
      let circle_name := pfx ++ "_" ++ toString timestamp
      some (true, { st with
        circles_and_spheres := dictInsert st.circles_and_spheres circle_name
          ⟨center_point, radius, "#FFA500", "dashed"⟩ })
    | _, _ => none
  | _, _ => some (false, st)

/-- The tolerance written `1e-6` in src/main.py (lines 125, 142). -/
noncomputable def eps : ℝ := 1 / 1000000

/-- The default absolute tolerance `atol = 1e-8` of `np.allclose`. -/
noncomputable def allclose_atol : ℝ := 1 / 100000000

/-- `np.allclose(v, [0, 0, 0])` with the default tolerances
(`rtol = 1e-5`, `atol = 1e-8`): since the reference is zero the `rtol` term
vanishes and the test is componentwise `|v_k| ≤ atol`. -/
def allclose0 (v : Vec3) : Prop :=
  |v.x| ≤ allclose_atol ∧ |v.y| ≤ allclose_atol ∧ |v.z| ≤ allclose_atol

noncomputable instance (v : Vec3) : Decidable (allclose0 v) := by
  unfold allclose0
  infer_instance

/-- Python's built-in banker's rounding to the nearest integer
(round-half-to-even); away from exact halves it agrees with rounding to the
nearest integer. -/
noncomputable def pyRoundInt (y : ℝ) : ℤ :=
  if Int.fract y = 1 / 2 then 2 * round (y / 2) else round y

/-- Python's `round(x, 2)` on the idealized reals: banker's rounding of
`x * 100` to an integer, divided by 100. -/
noncomputable def round2 (x : ℝ) : ℝ := (pyRoundInt (x * 100) : ℝ) / 100

/-- The result dict of `analyze_relations` (src/main.py lines 105-111). -/
structure RelationSet where
  perpendicular : List (String × String)
  parallel : List (String × String)
  length_ratio : List (String × String × ℝ)
  length_equal : List (String × String)
  length_diff : List (String × String × ℝ)

/-- The vector of a stored segment, via `get_vector` on its endpoint names
(src/main.py lines 117, 122). -/
def segVector (st : State) (p : String × Seg) : Option Vec3 :=
  get_vector st p.2.start p.2.endp

/-- Each segment name paired with its vector.  The `getD` default is only
reached in states where `analyze_relations` is not defined anyway (see
`analyze_relations`); it never affects a returned relation set. -/
def taggedVectors (st : State) : List (String × Vec3) :=
  st.segments.map (fun p => (p.1, (segVector st p).getD ⟨0, 0, 0⟩))

/-- The ordered pairs `(l[i], l[j])`, `i < j`, in the order the nested loops
of src/main.py lines 114-121 generate them. -/
def segPairs {α : Type} : List α → List (α × α)
  | [] => []
  | a :: t => t.map (fun b => (a, b)) ++ segPairs t

/-- `analyze_relations` (src/main.py lines 103-150).  When some stored
segment references a deleted point, `get_vector` returns `None` and the first
comparison touching that segment (`np.dot` with a `None` operand) raises an
uncaught `TypeError`; with at least two segments every segment is touched, so
the call crashes — modelled as `none`.  (With fewer than two segments the
loop body never runs and an empty relation set is returned even for a
dangling segment.)  Otherwise, for each generated pair: perpendicular when
`abs(dot) < 1e-6`; parallel when `np.allclose(cross, [0,0,0])`; a ratio entry
`round(len1/len2, 2)` when `len2 != 0`; length-equal when
`abs(len1 - len2) < 1e-6`; a difference entry `round(abs(len1 - len2), 2)`
when `len1 != len2`. -/
noncomputable def analyze_relations (st : State) : Option RelationSet :=
  if 2 ≤ st.segments.length ∧ st.segments.any (fun p => (segVector st p).isNone)
  then none
  else
    let pairs := segPairs (taggedVectors st)
    some {
      perpendicular := pairs.filterMap (fun pq =>
        if |vector_dot pq.1.2 pq.2.2| < eps then some (pq.1.1, pq.2.1) else none)
      parallel := pairs.filterMap (fun pq =>
        if allclose0 (vector_cross pq.1.2 pq.2.2) then some (pq.1.1, pq.2.1)
        else none)
      length_ratio := pairs.filterMap (fun pq =>
        if vector_magnitude pq.2.2 ≠ 0 then
          some (pq.1.1, pq.2.1,
            round2 (vector_magnitude pq.1.2 / vector_magnitude pq.2.2))
        else none)
      length_equal := pairs.filterMap (fun pq =>
        if |vector_magnitude pq.1.2 - vector_magnitude pq.2.2| < eps then
          some (pq.1.1, pq.2.1)
        else none)
      length_diff := pairs.filterMap (fun pq =>
        if vector_magnitude pq.1.2 ≠ vector_magnitude pq.2.2 then
          some (pq.1.1, pq.2.1,
            round2 |vector_magnitude pq.1.2 - vector_magnitude pq.2.2|)
        else none) }

/-- Well-formedness used by the relation/construction theorems: every stored
segment's endpoint names are present in the points dict. -/
def segEndpointsExist (st : State) : Prop :=
  ∀ p ∈ st.segments,
    (st.points.lookup p.2.start).isSome ∧ (st.points.lookup p.2.endp).isSome

instance (st : State) : Decidable (segEndpointsExist st) := by
  unfold segEndpointsExist
  exact List.decidableBAll _ _

lemma lookup_mem {α : Type} {l : List (String × α)} {k : String} {v : α}
    (h : l.lookup k = some v) : (k, v) ∈ l := by
  induction l with
  | nil => simp [List.lookup] at h
  | cons a t ih =>
    obtain ⟨k1, v1⟩ := a
    by_cases hk : k = k1
    · subst hk
      have h2 : some v1 = some v := by
        rw [List.lookup] at h
        simpa using h
      obtain rfl := Option.some.inj h2
      exact List.mem_cons_self _ _
    · have h2 : List.lookup k t = some v := by
        rw [List.lookup] at h
        have hbeq : (k == k1) = false := by
          simp [hk]
        rw [hbeq] at h
        exact h
      exact List.mem_cons_of_mem _ (ih h2)

lemma mem_segPairs {α : Type} {l : List α} {a b : α}
    (h : (a, b) ∈ segPairs l) : a ∈ l ∧ b ∈ l := by
  induction l with
  | nil => simp [segPairs] at h
  | cons c t ih =>
    rw [segPairs, List.mem_append] at h
    rcases h with h | h
    · rw [List.mem_map] at h
      obtain ⟨d, hd, he⟩ := h
      obtain ⟨rfl, rfl⟩ := Prod.mk.injEq .. ▸ he
      exact ⟨List.mem_cons_self .., List.mem_cons_of_mem _ hd⟩
    · obtain ⟨h1, h2⟩ := ih h
      exact ⟨List.mem_cons_of_mem _ h1, List.mem_cons_of_mem _ h2⟩

lemma keyNodup_eq {α : Type} {l : List (String × α)} {a b : String × α}
    (hnd : (l.map Prod.fst).Nodup) (ha : a ∈ l) (hb : b ∈ l)
    (hk : a.1 = b.1) : a = b := by
  induction l with
  | nil => simp at ha
  | cons c t ih =>
    rw [List.map_cons, List.nodup_cons] at hnd
    obtain ⟨hc, htnd⟩ := hnd
    rcases List.mem_cons.mp ha with ha1 | ha1 <;>
      rcases List.mem_cons.mp hb with hb1 | hb1
    · rw [ha1, hb1]
    · exfalso
      apply hc
      rw [List.mem_map]
      subst ha1
      exact ⟨b, hb1, hk.symm⟩
    · exfalso
      apply hc
      rw [List.mem_map]
      subst hb1
      exact ⟨a, ha1, hk⟩
    · exact ih htnd ha1 hb1

lemma taggedVectors_keys (st : State) :
    (taggedVectors st).map Prod.fst = st.segments.map Prod.fst := by
  unfold taggedVectors
  rw [List.map_map]
  rfl

/-- In a state whose segments all have existing endpoints, `analyze_relations`
takes its non-crashing branch and returns the relation set built from the
pair enumeration. -/
lemma analyze_relations_eq_of_wf (st : State) (hwf : segEndpointsExist st) :
    analyze_relations st =
      some {
        perpendicular := (segPairs (taggedVectors st)).filterMap (fun pq =>
          if |vector_dot pq.1.2 pq.2.2| < eps then some (pq.1.1, pq.2.1)
          else none)
        parallel := (segPairs (taggedVectors st)).filterMap (fun pq =>
          if allclose0 (vector_cross pq.1.2 pq.2.2) then some (pq.1.1, pq.2.1)
          else none)
        length_ratio := (segPairs (taggedVectors st)).filterMap (fun pq =>
          if vector_magnitude pq.2.2 ≠ 0 then
            some (pq.1.1, pq.2.1,
              round2 (vector_magnitude pq.1.2 / vector_magnitude pq.2.2))
          else none)
        length_equal := (segPairs (taggedVectors st)).filterMap (fun pq =>
          if |vector_magnitude pq.1.2 - vector_magnitude pq.2.2| < eps then
            some (pq.1.1, pq.2.1)
          else none)
        length_diff := (segPairs (taggedVectors st)).filterMap (fun pq =>
          if vector_magnitude pq.1.2 ≠ vector_magnitude pq.2.2 then
            some (pq.1.1, pq.2.1,
              round2 |vector_magnitude pq.1.2 - vector_magnitude pq.2.2|)
          else none) } := by
  unfold analyze_relations
  rw [if_neg]
  intro hc
  obtain ⟨_, hany⟩ := hc
  rw [List.any_eq_true] at hany
  obtain ⟨p, hp, hnone⟩ := hany
  obtain ⟨h1, h2⟩ := hwf p hp
  unfold segVector get_vector at hnone
  rw [Option.isSome_iff_exists] at h1 h2
  obtain ⟨s, hs⟩ := h1
  obtain ⟨e, he⟩ := h2
  rw [hs, he] at hnone
  simp at hnone

lemma eraseP_eq_filter_of_keyNodup {α : Type} (l : List (String × α))
    (hnd : (l.map Prod.fst).Nodup) (n : String) :
    l.eraseP (fun p => p.1 == n) = l.filter (fun p => !(p.1 == n)) := by
  induction l with
  | nil => rfl
  | cons a t ih =>
    rw [List.map_cons, List.nodup_cons] at hnd
    obtain ⟨hc, htnd⟩ := hnd
    by_cases h : a.1 = n
    · subst h
      rw [List.eraseP_cons_of_pos (by simp), List.filter_cons_of_neg (by simp)]
      symm
      apply List.filter_eq_self.mpr
      intro p hp
      have hpm : p.1 ∈ t.map Prod.fst := List.mem_map_of_mem _ hp
      have hne : p.1 ≠ a.1 := by
        intro he
        exact hc (he ▸ hpm)
      simp [hne]
    · rw [List.eraseP_cons_of_neg (by simp [h]),
        List.filter_cons_of_pos (by simp [h]), ih htnd]

lemma foldl_eraseP_eq_filter {α : Type} (ns : List String) :
    ∀ l : List (String × α), (l.map Prod.fst).Nodup →
      ns.foldl (fun ps n => ps.eraseP (fun p => p.1 == n)) l
        = l.filter (fun p => !(ns.contains p.1)) := by
  induction ns with
  | nil =>
    intro l _
    simp
  | cons n ns ih =>
    intro l hnd
    rw [List.foldl_cons, eraseP_eq_filter_of_keyNodup l hnd n]
    have hnd2 : ((l.filter (fun p => !(p.1 == n))).map Prod.fst).Nodup := by
      exact hnd.sublist ((List.filter_sublist _).map Prod.fst)
    rw [ih _ hnd2, List.filter_filter]
    apply List.filter_congr
    intro p _
    by_cases h1 : p.1 = n
    · simp [h1]
    · by_cases h2 : ns.contains p.1 <;> simp [h1, h2]

/-- Claim C10: `clear_temp_points` removes exactly the points whose name has
the prefix `temp_` and exactly the displayed-vector records whose start or
end name has the prefix, and leaves segments and circles untouched — in
particular a segment whose endpoint is a `temp_` point survives with a
now-dangling point reference.  (The points dict has unique keys, whence the
key-nodup hypothesis.) -/
theorem clear_temp_points_spec (st : State)
    (hnd : (st.points.map Prod.fst).Nodup) :
    (clear_temp_points st).points
        = st.points.filter (fun p => !(p.1.startsWith "temp_")) ∧
    (clear_temp_points st).segments = st.segments ∧
    (clear_temp_points st).circles_and_spheres = st.circles_and_spheres ∧
    (clear_temp_points st).vectors_to_display
        = st.vectors_to_display.filter
            (fun vec => !(vec.start.startsWith "temp_" || vec.endp.startsWith "temp_")) := by
  refine ⟨?_, rfl, rfl, rfl⟩
  show ((st.points.map Prod.fst).filter (fun n => n.startsWith "temp_")).foldl
      (fun ps n => ps.eraseP (fun p => p.1 == n)) st.points = _
  rw [foldl_eraseP_eq_filter _ _ hnd]
  apply List.filter_congr
  intro p hp
  have hmem : p.1 ∈ st.points.map Prod.fst := List.mem_map_of_mem _ hp
  by_cases h : p.1.startsWith "temp_"
  · have : ((st.points.map Prod.fst).filter
        (fun n => n.startsWith "temp_")).contains p.1 = true := by
      rw [List.contains_eq_any_beq, List.any_eq_true]
      refine ⟨p.1, ?_, by simp⟩
      rw [List.mem_filter]
      exact ⟨hmem, h⟩
    rw [this, h]
  · have : ((st.points.map Prod.fst).filter
        (fun n => n.startsWith "temp_")).contains p.1 = false := by
      rw [List.contains_eq_any_beq]
      rw [List.any_eq_false]
      intro x hx
      rw [List.mem_filter] at hx
      intro hbeq
      have : p.1 = x := eq_of_beq hbeq
      subst this
      exact h hx.2
    have h2 : p.1.startsWith "temp_" = false := by
      simpa using h
    rw [this, h2]

/-- Concrete instance of `clear_temp_points_spec`: a store with one `temp_`
point, one surviving point, a segment and a displayed vector that both
reference the `temp_` point. -/
theorem clear_temp_points_spec_witness :
    (clear_temp_points
        ⟨[("temp_a", ⟨0, 0, 0⟩), ("A", ⟨1, 2, 3⟩)],
         [("A_temp_a", ⟨"A", "temp_a", "#0000FF", "solid"⟩)],
         [⟨"A", "temp_a", "#FF0000", "v"⟩],
         []⟩).points
      = [("temp_a", (⟨0, 0, 0⟩ : Vec3)), ("A", ⟨1, 2, 3⟩)].filter
          (fun p => !(p.1.startsWith "temp_")) ∧
    (clear_temp_points
        ⟨[("temp_a", ⟨0, 0, 0⟩), ("A", ⟨1, 2, 3⟩)],
         [("A_temp_a", ⟨"A", "temp_a", "#0000FF", "solid"⟩)],
         [⟨"A", "temp_a", "#FF0000", "v"⟩],
         []⟩).segments
      = [("A_temp_a", ⟨"A", "temp_a", "#0000FF", "solid"⟩)] ∧
    (clear_temp_points
        ⟨[("temp_a", ⟨0, 0, 0⟩), ("A", ⟨1, 2, 3⟩)],
         [("A_temp_a", ⟨"A", "temp_a", "#0000FF", "solid"⟩)],
         [⟨"A", "temp_a", "#FF0000", "v"⟩],
         []⟩).circles_and_spheres = [] ∧
    (clear_temp_points
        ⟨[("temp_a", ⟨0, 0, 0⟩), ("A", ⟨1, 2, 3⟩)],
         [("A_temp_a", ⟨"A", "temp_a", "#0000FF", "solid"⟩)],
         [⟨"A", "temp_a", "#FF0000", "v"⟩],
         []⟩).vectors_to_display
      = [(⟨"A", "temp_a", "#FF0000", "v"⟩ : VecDisp)].filter
          (fun vec => !(vec.start.startsWith "temp_" || vec.endp.startsWith "temp_")) :=
  clear_temp_points_spec
    ⟨[("temp_a", ⟨0, 0, 0⟩), ("A", ⟨1, 2, 3⟩)],
     [("A_temp_a", ⟨"A", "temp_a", "#0000FF", "solid"⟩)],
     [⟨"A", "temp_a", "#FF0000", "v"⟩],
     []⟩ (by decide)

/-- Claim C5: `add_point` is atomic.  Either the name is fresh and all three
coordinate pipelines return a float, in which case exactly the one new entry
with the converted values is appended, or the call fails (duplicate name or a
raised conversion exception) and the points dict is exactly what it was. -/
theorem add_point_atomic (pts : List (String × (PyFloat × PyFloat × PyFloat)))
    (name : String) (x y z : CoordEval) :
    (∃ xv yv zv, x = CoordEval.ok xv ∧ y = CoordEval.ok yv ∧
        z = CoordEval.ok zv ∧ pts.lookup name = none ∧
        add_point pts name x y z = (true, pts ++ [(name, (xv, yv, zv))])) ∨
    ((pts.lookup name ≠ none ∨ x = CoordEval.exn ∨ y = CoordEval.exn ∨
        z = CoordEval.exn) ∧
      add_point pts name x y z = (false, pts)) := by
  unfold add_point
  by_cases hdup : (pts.lookup name).isSome
  · right
    refine ⟨Or.inl ?_, by rw [if_pos hdup]⟩
    intro hn
    rw [hn] at hdup
    simp at hdup
  · have hnone : pts.lookup name = none := by
      rcases hl : pts.lookup name with _ | w
      · rfl
      · rw [hl] at hdup
        simp at hdup
    cases x with
    | exn =>
      right
      exact ⟨Or.inr (Or.inl rfl), by rw [if_neg hdup]⟩
    | ok xv =>
      cases y with
      | exn =>
        right
        exact ⟨Or.inr (Or.inr (Or.inl rfl)), by rw [if_neg hdup]⟩
      | ok yv =>
        cases z with
        | exn =>
          right
          exact ⟨Or.inr (Or.inr (Or.inr rfl)), by rw [if_neg hdup]⟩
        | ok zv =>
          left
          exact ⟨xv, yv, zv, rfl, rfl, rfl, hnone, by rw [if_neg hdup]⟩

/-- Claim C4, failing input: the source's `add_point` has no finiteness
guard.  `add_point("P", "oo", "0", "0")` — where sympy evaluates `"oo"` to
its infinity object and `float` converts it to the non-finite Python float
`inf` — succeeds and stores the non-finite coordinate, while a conversion
that raises (such as `"1/0"`, whose `zoo` result makes `float` raise
`TypeError`) fails and leaves the dict unchanged. -/
theorem add_point_stores_nonfinite :
    add_point [] "P" (CoordEval.ok PyFloat.inf) (CoordEval.ok (PyFloat.val 0))
        (CoordEval.ok (PyFloat.val 0))
      = (true, [("P", (PyFloat.inf, PyFloat.val 0, PyFloat.val 0))]) ∧
    PyFloat.isFinite PyFloat.inf = false ∧
    add_point [] "P" CoordEval.exn (CoordEval.ok (PyFloat.val 0))
        (CoordEval.ok (PyFloat.val 0))
      = (false, []) :=
  ⟨rfl, rfl, rfl⟩

/-- Claim C1, failing input: a store whose segment `"A_T"` references the
point name `"T"` that is not in the points dict (deleted without cascading
the segment), next to the ordinary segment `"A_B"`.  `analyze_relations` does
not fail with a defined error result: `get_vector` yields `None` for the
dangling segment and the first `np.dot` on it raises an uncaught `TypeError`
— the crash modelled by the `none` result. -/
theorem analyze_relations_dangling_crash :
    (let st : State :=
      ⟨[("A", ⟨0, 0, 0⟩), ("B", ⟨1, 0, 0⟩)],
       [("A_B", ⟨"A", "B", "#0000FF", "solid"⟩),
        ("A_T", ⟨"A", "T", "#0000FF", "solid"⟩)],
       [], []⟩
    st.points.lookup "T" = none ∧
    st.segments.lookup "A_T" = some ⟨"A", "T", "#0000FF", "solid"⟩ ∧
    analyze_relations st = none) :=
  ⟨rfl, rfl, rfl⟩

lemma vector_magnitude_x (r : ℝ) (h : 0 ≤ r) : vector_magnitude ⟨r, 0, 0⟩ = r := by
  unfold vector_magnitude
  have he : r ^ 2 + (0:ℝ) ^ 2 + 0 ^ 2 = r ^ 2 := by ring
  rw [he, Real.sqrt_sq h]

lemma vector_magnitude_z (r : ℝ) (h : 0 ≤ r) : vector_magnitude ⟨0, 0, r⟩ = r := by
  unfold vector_magnitude
  have he : (0:ℝ) ^ 2 + 0 ^ 2 + r ^ 2 = r ^ 2 := by ring
  rw [he, Real.sqrt_sq h]

lemma eps_pos : 0 < eps := by
  norm_num [eps]

lemma round2_eq_zero {x : ℝ} (h0 : 0 ≤ x) (h1 : x < 1 / 200) : round2 x = 0 := by
  unfold round2 pyRoundInt
  have hf : Int.fract (x * 100) = x * 100 := by
    apply Int.fract_eq_self.mpr
    constructor <;> nlinarith
  have hne : Int.fract (x * 100) ≠ 1 / 2 := by
    rw [hf]
    nlinarith
  rw [if_neg hne, round_eq]
  have hz : ⌊x * 100 + 1 / 2⌋ = 0 := by
    apply Int.floor_eq_zero_iff.mpr
    rw [Set.mem_Ico]
    constructor <;> nlinarith
  rw [hz]
  norm_num

/-- Membership of a name pair in a payload-free relation list built by the
analyzer, characterized through the pair's vectors (the segment names are
dict keys, hence the nodup hypothesis). -/
lemma pair_filterMap_mem_iff (zs : List (String × Vec3))
    (hnd : (zs.map Prod.fst).Nodup) (a b : String × Vec3)
    (hab : (a, b) ∈ segPairs zs) (g : Vec3 → Vec3 → Prop)
    [inst : ∀ v w, Decidable (g v w)] :
    ((a.1, b.1) ∈ (segPairs zs).filterMap (fun pq =>
        if g pq.1.2 pq.2.2 then some (pq.1.1, pq.2.1) else none))
      ↔ g a.2 b.2 := by
  constructor
  · intro hmem
    rw [List.mem_filterMap] at hmem
    obtain ⟨pq, hpq, heq⟩ := hmem
    by_cases hg : g pq.1.2 pq.2.2
    · rw [if_pos hg] at heq
      have hpair := Option.some.inj heq
      have h1 : pq.1.1 = a.1 := by
        simpa using congrArg (fun q : String × String => q.1) hpair
      have h2 : pq.2.1 = b.1 := by
        simpa using congrArg (fun q : String × String => q.2) hpair
      obtain ⟨hm1, hm2⟩ := mem_segPairs hpq
      obtain ⟨ha1, hb1⟩ := mem_segPairs hab
      have e1 : pq.1 = a := keyNodup_eq hnd hm1 ha1 h1
      have e2 : pq.2 = b := keyNodup_eq hnd hm2 hb1 h2
      rw [e1, e2] at hg
      exact hg
    · rw [if_neg hg] at heq
      exact absurd heq (by simp)
  · intro hg
    rw [List.mem_filterMap]
    exact ⟨(a, b), hab, by rw [if_pos hg]⟩

/-- Membership of a name-and-scalar triple in a payload-carrying relation
list built by the analyzer. -/
lemma pair_filterMap_payload_iff (zs : List (String × Vec3))
    (hnd : (zs.map Prod.fst).Nodup) (a b : String × Vec3)
    (hab : (a, b) ∈ segPairs zs) (g : Vec3 → Vec3 → Prop)
    [inst : ∀ v w, Decidable (g v w)] (pay : Vec3 → Vec3 → ℝ) (d : ℝ) :
    ((a.1, b.1, d) ∈ (segPairs zs).filterMap (fun pq =>
        if g pq.1.2 pq.2.2 then some (pq.1.1, pq.2.1, pay pq.1.2 pq.2.2)
        else none))
      ↔ (g a.2 b.2 ∧ d = pay a.2 b.2) := by
  constructor
  · intro hmem
    rw [List.mem_filterMap] at hmem
    obtain ⟨pq, hpq, heq⟩ := hmem
    by_cases hg : g pq.1.2 pq.2.2
    · rw [if_pos hg] at heq
      have hpair := Option.some.inj heq
      have h1 : pq.1.1 = a.1 := by
        simpa using congrArg (fun q : String × String × ℝ => q.1) hpair
      have h2 : pq.2.1 = b.1 := by
        simpa using congrArg (fun q : String × String × ℝ => q.2.1) hpair
      have h3 : pay pq.1.2 pq.2.2 = d := by
        simpa using congrArg (fun q : String × String × ℝ => q.2.2) hpair
      obtain ⟨hm1, hm2⟩ := mem_segPairs hpq
      obtain ⟨ha1, hb1⟩ := mem_segPairs hab
      have e1 : pq.1 = a := keyNodup_eq hnd hm1 ha1 h1
      have e2 : pq.2 = b := keyNodup_eq hnd hm2 hb1 h2
      rw [e1, e2] at hg h3
      exact ⟨hg, h3.symm⟩
    · rw [if_neg hg] at heq
      exact absurd heq (by simp)
  · intro hg
    rw [List.mem_filterMap]
    refine ⟨(a, b), hab, ?_⟩
    rw [if_pos hg.1, hg.2]

lemma taggedVectors_keys_nodup (st : State)
    (hnd : (st.segments.map Prod.fst).Nodup) :
    ((taggedVectors st).map Prod.fst).Nodup := by
  rw [taggedVectors_keys]
  exact hnd

/-- Claim C2 (amended): for every pair of distinct segments enumerated by the
analyzer (all endpoints existing, segment names unique), the pair appears in
`length_equal` iff `|len1 - len2| < 1e-6`, and appears in `length_diff` iff
`len1 ≠ len2` — with the recorded value `round(|len1 - len2|, 2)`, which can
be `0` — so at least one of the two always holds, but both hold whenever
`0 < |len1 - len2| < 1e-6`. -/
theorem length_equal_diff_characterization (st : State)
    (hwf : segEndpointsExist st) (hnd : (st.segments.map Prod.fst).Nodup)
    (a b : String × Vec3) (hab : (a, b) ∈ segPairs (taggedVectors st)) :
    ∃ rel, analyze_relations st = some rel ∧
      ((a.1, b.1) ∈ rel.length_equal ↔
        |vector_magnitude a.2 - vector_magnitude b.2| < eps) ∧
      (∀ d, (a.1, b.1, d) ∈ rel.length_diff ↔
        (vector_magnitude a.2 ≠ vector_magnitude b.2 ∧
          d = round2 |vector_magnitude a.2 - vector_magnitude b.2|)) ∧
      ((a.1, b.1) ∈ rel.length_equal ∨
        (a.1, b.1, round2 |vector_magnitude a.2 - vector_magnitude b.2|)
          ∈ rel.length_diff) := by
  have hnd2 := taggedVectors_keys_nodup st hnd
  refine ⟨_, analyze_relations_eq_of_wf st hwf, ?_, ?_, ?_⟩
  · exact pair_filterMap_mem_iff _ hnd2 a b hab
      (fun v w => |vector_magnitude v - vector_magnitude w| < eps)
  · intro d
    exact pair_filterMap_payload_iff _ hnd2 a b hab
      (fun v w => vector_magnitude v ≠ vector_magnitude w)
      (fun v w => round2 |vector_magnitude v - vector_magnitude w|) d
  · by_cases heq : |vector_magnitude a.2 - vector_magnitude b.2| < eps
    · left
      exact (pair_filterMap_mem_iff _ hnd2 a b hab
        (fun v w => |vector_magnitude v - vector_magnitude w| < eps)).mpr heq
    · right
      have hne : vector_magnitude a.2 ≠ vector_magnitude b.2 := by
        intro hc
        apply heq
        rw [hc]
        simpa using eps_pos
      exact (pair_filterMap_payload_iff _ hnd2 a b hab
        (fun v w => vector_magnitude v ≠ vector_magnitude w)
        (fun v w => round2 |vector_magnitude v - vector_magnitude w|) _).mpr
        ⟨hne, rfl⟩

/-- A store with segments `A_B` (length 1) and `A_C` (length 1 + 1e-7):
the two lengths are distinct but closer than the 1e-6 tolerance. -/
noncomputable def Wboth : State :=
  ⟨[("A", ⟨0, 0, 0⟩), ("B", ⟨1, 0, 0⟩), ("C", ⟨1 + 1 / 10000000, 0, 0⟩)],
   [("A_B", ⟨"A", "B", "#0000FF", "solid"⟩),
    ("A_C", ⟨"A", "C", "#0000FF", "solid"⟩)],
   [], []⟩

lemma Wboth_v1 : vector_subtract ⟨1, 0, 0⟩ ⟨0, 0, 0⟩ = (⟨1, 0, 0⟩ : Vec3) := by
  simp [vector_subtract]

lemma Wboth_v2 :
    vector_subtract ⟨1 + 1 / 10000000, 0, 0⟩ ⟨0, 0, 0⟩
      = (⟨1 + 1 / 10000000, 0, 0⟩ : Vec3) := by
  simp [vector_subtract]

lemma Wboth_m1 : vector_magnitude (vector_subtract ⟨1, 0, 0⟩ ⟨0, 0, 0⟩) = 1 := by
  rw [Wboth_v1]
  exact vector_magnitude_x 1 (by norm_num)

lemma Wboth_m2 :
    vector_magnitude (vector_subtract ⟨1 + 1 / 10000000, 0, 0⟩ ⟨0, 0, 0⟩)
      = 1 + 1 / 10000000 := by
  rw [Wboth_v2]
  exact vector_magnitude_x _ (by norm_num)

lemma Wboth_absdiff : |(1:ℝ) - (1 + 1 / 10000000)| = 1 / 10000000 := by
  rw [abs_sub_comm, show (1:ℝ) + 1 / 10000000 - 1 = 1 / 10000000 by ring]
  exact abs_of_nonneg (by norm_num)

/-- Claim C2, counterexample: in the store `Wboth` the segments `A_B` and
`A_C` have lengths 1 and 1 + 1e-7, so the pair lands in `length_equal`
(difference below the 1e-6 tolerance) AND in `length_diff` (the lengths are
not identical), and the recorded difference `round(1e-7, 2)` is `0`, not
strictly positive. -/
theorem length_lists_overlap :
    (analyze_relations Wboth).isSome = true ∧
    ("A_B", "A_C")
      ∈ ((analyze_relations Wboth).getD ⟨[], [], [], [], []⟩).length_equal ∧
    ("A_B", "A_C", (0:ℝ))
      ∈ ((analyze_relations Wboth).getD ⟨[], [], [], [], []⟩).length_diff := by
  have hwf : segEndpointsExist Wboth := by decide
  have hnd2 := taggedVectors_keys_nodup Wboth (by decide)
  have hab : (("A_B", vector_subtract ⟨1, 0, 0⟩ ⟨0, 0, 0⟩),
      ("A_C", vector_subtract ⟨1 + 1 / 10000000, 0, 0⟩ ⟨0, 0, 0⟩))
      ∈ segPairs (taggedVectors Wboth) :=
    List.mem_singleton.mpr rfl
  refine ⟨?_, ?_, ?_⟩
  · rw [analyze_relations_eq_of_wf Wboth hwf]
    rfl
  · rw [analyze_relations_eq_of_wf Wboth hwf, Option.getD_some]
    apply (pair_filterMap_mem_iff (taggedVectors Wboth) hnd2 _ _ hab
      (fun v w => |vector_magnitude v - vector_magnitude w| < eps)).mpr
    rw [Wboth_m1, Wboth_m2, Wboth_absdiff]
    norm_num [eps]
  · rw [analyze_relations_eq_of_wf Wboth hwf, Option.getD_some]
    apply (pair_filterMap_payload_iff (taggedVectors Wboth) hnd2 _ _ hab
      (fun v w => vector_magnitude v ≠ vector_magnitude w)
      (fun v w => round2 |vector_magnitude v - vector_magnitude w|) 0).mpr
    constructor
    · rw [Wboth_m1, Wboth_m2]
      norm_num
    · rw [Wboth_m1, Wboth_m2, Wboth_absdiff]
      symm
      exact round2_eq_zero (by norm_num) (by norm_num)

/-- Concrete instance of `length_equal_diff_characterization` at the store
`Wboth` and its single segment pair. -/
theorem length_equal_diff_characterization_witness :
    ∃ rel, analyze_relations Wboth = some rel ∧
      (("A_B", "A_C") ∈ rel.length_equal ↔
        |vector_magnitude (vector_subtract ⟨1, 0, 0⟩ ⟨0, 0, 0⟩) -
          vector_magnitude (vector_subtract ⟨1 + 1 / 10000000, 0, 0⟩ ⟨0, 0, 0⟩)| < eps) ∧
      (∀ d, ("A_B", "A_C", d) ∈ rel.length_diff ↔
        (vector_magnitude (vector_subtract ⟨1, 0, 0⟩ ⟨0, 0, 0⟩) ≠
          vector_magnitude (vector_subtract ⟨1 + 1 / 10000000, 0, 0⟩ ⟨0, 0, 0⟩) ∧
          d = round2 |vector_magnitude (vector_subtract ⟨1, 0, 0⟩ ⟨0, 0, 0⟩) -
            vector_magnitude (vector_subtract ⟨1 + 1 / 10000000, 0, 0⟩ ⟨0, 0, 0⟩)|)) ∧
      (("A_B", "A_C") ∈ rel.length_equal ∨
        ("A_B", "A_C", round2 |vector_magnitude (vector_subtract ⟨1, 0, 0⟩ ⟨0, 0, 0⟩) -
          vector_magnitude (vector_subtract ⟨1 + 1 / 10000000, 0, 0⟩ ⟨0, 0, 0⟩)|)
          ∈ rel.length_diff) :=
  length_equal_diff_characterization Wboth (by decide) (by decide)
    ("A_B", vector_subtract ⟨1, 0, 0⟩ ⟨0, 0, 0⟩)
    ("A_C", vector_subtract ⟨1 + 1 / 10000000, 0, 0⟩ ⟨0, 0, 0⟩)
    (List.mem_singleton.mpr rfl)

/-- Claim C3 (amended): the analyzer records a pair as parallel iff
`np.allclose(cross, [0,0,0])` holds, i.e. iff every component of the cross
product is at most `1e-8` in absolute value — a different (componentwise,
non-strict, `atol = 1e-8`) test than the single strict `1e-6` tolerance used
for perpendicularity (and length equality). -/
theorem parallel_characterization (st : State) (hwf : segEndpointsExist st)
    (hnd : (st.segments.map Prod.fst).Nodup) (a b : String × Vec3)
    (hab : (a, b) ∈ segPairs (taggedVectors st)) :
    ∃ rel, analyze_relations st = some rel ∧
      ((a.1, b.1) ∈ rel.parallel ↔ allclose0 (vector_cross a.2 b.2)) ∧
      ((a.1, b.1) ∈ rel.perpendicular ↔ |vector_dot a.2 b.2| < eps) := by
  have hnd2 := taggedVectors_keys_nodup st hnd
  refine ⟨_, analyze_relations_eq_of_wf st hwf, ?_, ?_⟩
  · exact pair_filterMap_mem_iff _ hnd2 a b hab
      (fun v w => allclose0 (vector_cross v w))
  · exact pair_filterMap_mem_iff _ hnd2 a b hab
      (fun v w => |vector_dot v w| < eps)

/-- A store with segments `A_B` (vector `(1,0,0)`) and `A_D` (vector
`(1, 1e-7, 0)`): the cross product is `(0, 0, 1e-7)`, of magnitude below
`1e-6` but above numpy's `1e-8` `allclose` tolerance. -/
noncomputable def Wpar : State :=
  ⟨[("A", ⟨0, 0, 0⟩), ("B", ⟨1, 0, 0⟩), ("D", ⟨1, 1 / 10000000, 0⟩)],
   [("A_B", ⟨"A", "B", "#0000FF", "solid"⟩),
    ("A_D", ⟨"A", "D", "#0000FF", "solid"⟩)],
   [], []⟩

lemma Wpar_vD :
    vector_subtract ⟨1, 1 / 10000000, 0⟩ ⟨0, 0, 0⟩
      = (⟨1, 1 / 10000000, 0⟩ : Vec3) := by
  simp [vector_subtract]

lemma Wpar_cross :
    vector_cross ⟨1, 0, 0⟩ ⟨1, 1 / 10000000, 0⟩
      = (⟨0, 0, 1 / 10000000⟩ : Vec3) := by
  simp [vector_cross]

/-- Claim C3, counterexample: in the store `Wpar` the cross product of the
two segment vectors has magnitude 1e-7 < 1e-6, yet the pair is NOT recorded
as parallel (numpy `allclose` against zero demands componentwise ≤ 1e-8). -/
theorem parallel_missing_below_eps :
    vector_magnitude (vector_cross (vector_subtract ⟨1, 0, 0⟩ ⟨0, 0, 0⟩)
        (vector_subtract ⟨1, 1 / 10000000, 0⟩ ⟨0, 0, 0⟩)) < eps ∧
    (analyze_relations Wpar).isSome = true ∧
    ("A_B", "A_D")
      ∉ ((analyze_relations Wpar).getD ⟨[], [], [], [], []⟩).parallel := by
  have hwf : segEndpointsExist Wpar := by decide
  have hnd2 := taggedVectors_keys_nodup Wpar (by decide)
  have hab : (("A_B", vector_subtract ⟨1, 0, 0⟩ ⟨0, 0, 0⟩),
      ("A_D", vector_subtract ⟨1, 1 / 10000000, 0⟩ ⟨0, 0, 0⟩))
      ∈ segPairs (taggedVectors Wpar) :=
    List.mem_singleton.mpr rfl
  refine ⟨?_, ?_, ?_⟩
  · rw [Wboth_v1, Wpar_vD, Wpar_cross, vector_magnitude_z _ (by norm_num)]
    norm_num [eps]
  · rw [analyze_relations_eq_of_wf Wpar hwf]
    rfl
  · rw [analyze_relations_eq_of_wf Wpar hwf, Option.getD_some]
    intro hmem
    have hcl := (pair_filterMap_mem_iff (taggedVectors Wpar) hnd2 _ _ hab
      (fun v w => allclose0 (vector_cross v w))).mp hmem
    rw [Wboth_v1, Wpar_vD, Wpar_cross] at hcl
    norm_num [allclose0, allclose_atol] at hcl
    rw [abs_of_nonneg (by norm_num : (0:ℝ) ≤ 1 / 10000000)] at hcl
    norm_num at hcl

/-- Concrete instance of `parallel_characterization` at the store `Wpar` and
its single segment pair. -/
theorem parallel_characterization_witness :
    ∃ rel, analyze_relations Wpar = some rel ∧
      (("A_B", "A_D") ∈ rel.parallel ↔
        allclose0 (vector_cross (vector_subtract ⟨1, 0, 0⟩ ⟨0, 0, 0⟩)
          (vector_subtract ⟨1, 1 / 10000000, 0⟩ ⟨0, 0, 0⟩))) ∧
      (("A_B", "A_D") ∈ rel.perpendicular ↔
        |vector_dot (vector_subtract ⟨1, 0, 0⟩ ⟨0, 0, 0⟩)
          (vector_subtract ⟨1, 1 / 10000000, 0⟩ ⟨0, 0, 0⟩)| < eps) :=
  parallel_characterization Wpar (by decide) (by decide)
    ("A_B", vector_subtract ⟨1, 0, 0⟩ ⟨0, 0, 0⟩)
    ("A_D", vector_subtract ⟨1, 1 / 10000000, 0⟩ ⟨0, 0, 0⟩)
    (List.mem_singleton.mpr rfl)

/-- Claim C8: a zero-length segment (its `get_vector` difference is the zero
vector, i.e. both endpoints coincide) is not excluded from the pair loop: any
enumerated pair containing it is recorded both as perpendicular
(`|dot| = 0 < 1e-6`) and as parallel (`cross = 0` passes `allclose`). -/
theorem zero_vector_pair_trivially_related (st : State)
    (hwf : segEndpointsExist st) (a b : String × Vec3)
    (hab : (a, b) ∈ segPairs (taggedVectors st))
    (hz : a.2 = ⟨0, 0, 0⟩ ∨ b.2 = ⟨0, 0, 0⟩) :
    ∃ rel, analyze_relations st = some rel ∧
      (a.1, b.1) ∈ rel.perpendicular ∧ (a.1, b.1) ∈ rel.parallel := by
  have hdot : |vector_dot a.2 b.2| < eps := by
    rcases hz with h | h <;> rw [h] <;> simp [vector_dot] <;> exact eps_pos
  have hcross : allclose0 (vector_cross a.2 b.2) := by
    have hc0 : vector_cross a.2 b.2 = ⟨0, 0, 0⟩ := by
      rcases hz with h | h <;> rw [h] <;> simp [vector_cross]
    rw [hc0]
    refine ⟨?_, ?_, ?_⟩ <;> norm_num [allclose_atol]
  refine ⟨_, analyze_relations_eq_of_wf st hwf, ?_, ?_⟩
  · rw [List.mem_filterMap]
    exact ⟨(a, b), hab, by rw [if_pos hdot]⟩
  · rw [List.mem_filterMap]
    exact ⟨(a, b), hab, by rw [if_pos hcross]⟩

/-- A store with the zero-length segment `A_A` and the ordinary segment
`A_B`. -/
noncomputable def Wzero : State :=
  ⟨[("A", ⟨2, 3, 0⟩), ("B", ⟨5, 7, 0⟩)],
   [("A_A", ⟨"A", "A", "#0000FF", "solid"⟩),
    ("A_B", ⟨"A", "B", "#0000FF", "solid"⟩)],
   [], []⟩

/-- Concrete instance of `zero_vector_pair_trivially_related` at the store
`Wzero`: the pair of the zero-length segment `A_A` with `A_B` is in both the
perpendicular and the parallel lists. -/
theorem zero_vector_pair_trivially_related_witness :
    ∃ rel, analyze_relations Wzero = some rel ∧
      ("A_A", "A_B") ∈ rel.perpendicular ∧ ("A_A", "A_B") ∈ rel.parallel :=
  zero_vector_pair_trivially_related Wzero (by decide)
    ("A_A", vector_subtract ⟨2, 3, 0⟩ ⟨2, 3, 0⟩)
    ("A_B", vector_subtract ⟨5, 7, 0⟩ ⟨2, 3, 0⟩)
    (List.mem_singleton.mpr rfl)
    (Or.inl (by simp [vector_subtract]))

lemma add_segment_points (st : State) (s e c l : String) :
    ((add_segment st s e c l).2).points = st.points := by
  simp only [add_segment]
  split_ifs <;> rfl

/-- Claim C9: on a segment whose endpoints exist, `create_midpoint` succeeds
and appends the point whose coordinates are the componentwise arithmetic mean
of the endpoints, and the distance from the first endpoint to the midpoint
equals (exactly, hence within any tolerance) the distance from the midpoint
to the second endpoint.  (Freshness of the synthesized name makes the inner
`add_point` insertion succeed; the source ignores its return flag.) -/
theorem create_midpoint_spec (st : State) (sn pfx : String) (ts : Nat)
    (seg : Seg) (hseg : st.segments.lookup sn = some seg)
    (p1 p2 : Vec3) (h1 : st.points.lookup seg.start = some p1)
    (h2 : st.points.lookup seg.endp = some p2)
    (hfresh : st.points.lookup (pfx ++ "_" ++ sn ++ "_" ++ toString ts) = none) :
    ∃ st2, create_midpoint st sn pfx ts = some (true, st2) ∧
      st2.points = st.points ++
        [(pfx ++ "_" ++ sn ++ "_" ++ toString ts,
          ⟨(p1.x + p2.x) / 2, (p1.y + p2.y) / 2, (p1.z + p2.z) / 2⟩)] ∧
      vector_magnitude (vector_subtract
          ⟨(p1.x + p2.x) / 2, (p1.y + p2.y) / 2, (p1.z + p2.z) / 2⟩ p1)
        = vector_magnitude (vector_subtract p2
          ⟨(p1.x + p2.x) / 2, (p1.y + p2.y) / 2, (p1.z + p2.z) / 2⟩) := by
  refine ⟨(add_point_numeric st (pfx ++ "_" ++ sn ++ "_" ++ toString ts)
      ⟨(p1.x + p2.x) / 2, (p1.y + p2.y) / 2, (p1.z + p2.z) / 2⟩).2, ?_, ?_, ?_⟩
  · unfold create_midpoint
    simp only [hseg, h1, h2]
  · unfold add_point_numeric
    rw [hfresh]
    rfl
  · have hv : vector_subtract
        (⟨(p1.x + p2.x) / 2, (p1.y + p2.y) / 2, (p1.z + p2.z) / 2⟩ : Vec3) p1
        = vector_subtract p2
          ⟨(p1.x + p2.x) / 2, (p1.y + p2.y) / 2, (p1.z + p2.z) / 2⟩ := by
      apply Vec3.ext <;> simp [vector_subtract] <;> ring
    rw [hv]

/-- A two-point store with a single segment `A_B`, for the construction
witnesses. -/
noncomputable def Wmid : State :=
  ⟨[("A", ⟨0, 0, 0⟩), ("B", ⟨2, 4, 6⟩)],
   [("A_B", ⟨"A", "B", "#0000FF", "solid"⟩)],
   [], []⟩

/-- Concrete instance of `create_midpoint_spec` at the store `Wmid`. -/
theorem create_midpoint_spec_witness :
    ∃ st2, create_midpoint Wmid "A_B" "mid" 7 = some (true, st2) ∧
      st2.points = Wmid.points ++
        [("mid" ++ "_" ++ "A_B" ++ "_" ++ toString 7,
          ⟨((0:ℝ) + 2) / 2, ((0:ℝ) + 4) / 2, ((0:ℝ) + 6) / 2⟩)] ∧
      vector_magnitude (vector_subtract
          ⟨((0:ℝ) + 2) / 2, ((0:ℝ) + 4) / 2, ((0:ℝ) + 6) / 2⟩ ⟨0, 0, 0⟩)
        = vector_magnitude (vector_subtract ⟨2, 4, 6⟩
          ⟨((0:ℝ) + 2) / 2, ((0:ℝ) + 4) / 2, ((0:ℝ) + 6) / 2⟩) :=
  create_midpoint_spec Wmid "A_B" "mid" 7
    ⟨"A", "B", "#0000FF", "solid"⟩ rfl ⟨0, 0, 0⟩ ⟨2, 4, 6⟩ rfl rfl rfl

lemma dictInsert_fresh {α : Type} (l : List (String × α)) (k : String) (v : α)
    (h : l.lookup k = none) : dictInsert l k v = l ++ [(k, v)] := by
  unfold dictInsert
  rw [h]
  rfl

/-- Claim C6 (amended): each construction operation fails with a defined error
when its directly referenced point or segment is absent; on success (with
fresh synthesized names) perpendicular, parallel and midpoint append exactly
one new point, while `create_circle_or_sphere` appends exactly one
circle/sphere record and no point. -/
theorem construction_engine_effects (st : State) :
    (∀ pn sn pfx ts,
      (st.points.lookup pn = none ∨ st.segments.lookup sn = none) →
      create_perpendicular st pn sn pfx ts = some (false, st)) ∧
    (∀ pn sn pfx ts p0 seg p1 p2,
      st.points.lookup pn = some p0 → st.segments.lookup sn = some seg →
      st.points.lookup seg.start = some p1 →
      st.points.lookup seg.endp = some p2 →
      st.points.lookup (pfx ++ "_end_" ++ toString ts) = none →
      ∃ st2, create_perpendicular st pn sn pfx ts = some (true, st2) ∧
        st2.points = st.points ++ [(pfx ++ "_end_" ++ toString ts,
          ⟨p0.x + -(p2.y - p1.y), p0.y + (p2.x - p1.x), p0.z⟩)]) ∧
    (∀ pn sn pfx ts,
      (st.points.lookup pn = none ∨ st.segments.lookup sn = none) →
      create_parallel st pn sn pfx ts = some (false, st)) ∧
    (∀ pn sn pfx ts p0 seg p1 p2,
      st.points.lookup pn = some p0 → st.segments.lookup sn = some seg →
      st.points.lookup seg.start = some p1 →
      st.points.lookup seg.endp = some p2 →
      st.points.lookup (pfx ++ "_end_" ++ toString ts) = none →
      ∃ st2, create_parallel st pn sn pfx ts = some (true, st2) ∧
        st2.points = st.points ++ [(pfx ++ "_end_" ++ toString ts,
          ⟨p0.x + (p2.x - p1.x), p0.y + (p2.y - p1.y), p0.z⟩)]) ∧
    (∀ sn pfx ts, st.segments.lookup sn = none →
      create_midpoint st sn pfx ts = some (false, st)) ∧
    (∀ sn pfx ts seg p1 p2,
      st.segments.lookup sn = some seg →
      st.points.lookup seg.start = some p1 →
      st.points.lookup seg.endp = some p2 →
      st.points.lookup (pfx ++ "_" ++ sn ++ "_" ++ toString ts) = none →
      ∃ st2, create_midpoint st sn pfx ts = some (true, st2) ∧
        st2.points = st.points ++ [(pfx ++ "_" ++ sn ++ "_" ++ toString ts,
          ⟨(p1.x + p2.x) / 2, (p1.y + p2.y) / 2, (p1.z + p2.z) / 2⟩)]) ∧
    (∀ cp rs pfx ts,
      (st.points.lookup cp = none ∨ st.segments.lookup rs = none) →
      create_circle_or_sphere st cp rs pfx ts = some (false, st)) ∧
    (∀ cp rs pfx ts pc seg p1 p2,
      st.points.lookup cp = some pc → st.segments.lookup rs = some seg →
      st.points.lookup seg.start = some p1 →
      st.points.lookup seg.endp = some p2 →
      st.circles_and_spheres.lookup (pfx ++ "_" ++ toString ts) = none →
      ∃ st2, create_circle_or_sphere st cp rs pfx ts = some (true, st2) ∧
        st2.points = st.points ∧ st2.segments = st.segments ∧
        st2.circles_and_spheres = st.circles_and_spheres ++
          [(pfx ++ "_" ++ toString ts,
            ⟨cp, Real.sqrt ((p2.x - p1.x) ^ 2 + (p2.y - p1.y) ^ 2 +
              (p2.z - p1.z) ^ 2), "#FFA500", "dashed"⟩)]) := by
  refine ⟨?_, ?_, ?_, ?_, ?_, ?_, ?_, ?_⟩
  · intro pn sn pfx ts h
    unfold create_perpendicular
    rcases h with h | h
    · rcases hs : st.segments.lookup sn with _ | seg <;> simp only [h, hs]
    · rcases hp : st.points.lookup pn with _ | p0 <;> simp only [hp, h]
  · intro pn sn pfx ts p0 seg p1 p2 hp hs h1 h2 hfresh
    refine ⟨(add_segment (add_point_numeric st (pfx ++ "_end_" ++ toString ts)
        ⟨p0.x + -(p2.y - p1.y), p0.y + (p2.x - p1.x), p0.z⟩).2
        pn (pfx ++ "_end_" ++ toString ts) "#FF00FF" "dashed").2, ?_, ?_⟩
    · unfold create_perpendicular
      simp only [hp, hs, h1, h2]
    · rw [add_segment_points]
      unfold add_point_numeric
      rw [hfresh]
      rfl
  · intro pn sn pfx ts h
    unfold create_parallel
    rcases h with h | h
    · rcases hs : st.segments.lookup sn with _ | seg <;> simp only [h, hs]
    · rcases hp : st.points.lookup pn with _ | p0 <;> simp only [hp, h]
  · intro pn sn pfx ts p0 seg p1 p2 hp hs h1 h2 hfresh
    refine ⟨(add_segment (add_point_numeric st (pfx ++ "_end_" ++ toString ts)
        ⟨p0.x + (p2.x - p1.x), p0.y + (p2.y - p1.y), p0.z⟩).2
        pn (pfx ++ "_end_" ++ toString ts) "#00AAFF" "dashed").2, ?_, ?_⟩
    · unfold create_parallel
      simp only [hp, hs, h1, h2]
    · rw [add_segment_points]
      unfold add_point_numeric
      rw [hfresh]
      rfl
  · intro sn pfx ts h
    unfold create_midpoint
    simp only [h]
  · intro sn pfx ts seg p1 p2 hs h1 h2 hfresh
    refine ⟨(add_point_numeric st (pfx ++ "_" ++ sn ++ "_" ++ toString ts)
        ⟨(p1.x + p2.x) / 2, (p1.y + p2.y) / 2, (p1.z + p2.z) / 2⟩).2, ?_, ?_⟩
    · unfold create_midpoint
      simp only [hs, h1, h2]
    · unfold add_point_numeric
      rw [hfresh]
      rfl
  · intro cp rs pfx ts h
    unfold create_circle_or_sphere
    rcases h with h | h
    · rcases hs : st.segments.lookup rs with _ | seg <;> simp only [h, hs]
    · rcases hp : st.points.lookup cp with _ | pc <;> simp only [hp, h]
  · intro cp rs pfx ts pc seg p1 p2 hp hs h1 h2 hfresh
    refine ⟨{ st with circles_and_spheres := (dictInsert st.circles_and_spheres
        (pfx ++ "_" ++ toString ts)
        ⟨cp, Real.sqrt ((p2.x - p1.x) ^ 2 + (p2.y - p1.y) ^ 2 +
          (p2.z - p1.z) ^ 2), "#FFA500", "dashed"⟩) }, ?_, rfl, rfl, ?_⟩
    · unfold create_circle_or_sphere
      simp only [hp, hs, h1, h2]
    · show dictInsert st.circles_and_spheres (pfx ++ "_" ++ toString ts) _ = _
      rw [dictInsert_fresh _ _ _ hfresh]

/-- Claim C6, counterexample: on the store `Wmid`, `create_circle_or_sphere`
with existing center `A` and radius segment `A_B` succeeds, yet the points
dict is exactly what it was — no point is appended (one circle record is
appended instead). -/
theorem create_circle_adds_no_point :
    (create_circle_or_sphere Wmid "A" "A_B" "circle" 1).isSome = true ∧
    ((create_circle_or_sphere Wmid "A" "A_B" "circle" 1).getD (false, Wmid)).1
      = true ∧
    ((create_circle_or_sphere Wmid "A" "A_B" "circle" 1).getD
        (false, Wmid)).2.points = Wmid.points ∧
    ((create_circle_or_sphere Wmid "A" "A_B" "circle" 1).getD
        (false, Wmid)).2.circles_and_spheres.length
      = Wmid.circles_and_spheres.length + 1 :=
  ⟨rfl, rfl, rfl, rfl⟩

/-- Concrete instances of the eight conjuncts of
`construction_engine_effects` at the store `Wmid`: absent references are
rejected with the store unchanged, successful perpendicular / parallel /
midpoint calls append exactly the one synthesized point, and a successful
circle call leaves points and segments unchanged while appending one circle
record. -/
theorem construction_engine_effects_witness :
    (create_perpendicular Wmid "X" "A_B" "perp" 1 = some (false, Wmid)) ∧
    (∃ st2, create_perpendicular Wmid "A" "A_B" "perp" 2 = some (true, st2) ∧
      st2.points = Wmid.points ++ [("perp" ++ "_end_" ++ toString 2,
        ⟨(0:ℝ) + -((4:ℝ) - 0), (0:ℝ) + ((2:ℝ) - 0), (0:ℝ)⟩)]) ∧
    (create_parallel Wmid "A" "Zseg" "parallel" 1 = some (false, Wmid)) ∧
    (∃ st2, create_parallel Wmid "A" "A_B" "parallel" 2 = some (true, st2) ∧
      st2.points = Wmid.points ++ [("parallel" ++ "_end_" ++ toString 2,
        ⟨(0:ℝ) + ((2:ℝ) - 0), (0:ℝ) + ((4:ℝ) - 0), (0:ℝ)⟩)]) ∧
    (create_midpoint Wmid "Zseg" "mid" 1 = some (false, Wmid)) ∧
    (∃ st2, create_midpoint Wmid "A_B" "mid" 9 = some (true, st2) ∧
      st2.points = Wmid.points ++ [("mid" ++ "_" ++ "A_B" ++ "_" ++ toString 9,
        ⟨((0:ℝ) + 2) / 2, ((0:ℝ) + 4) / 2, ((0:ℝ) + 6) / 2⟩)]) ∧
    (create_circle_or_sphere Wmid "X" "A_B" "circle" 1 = some (false, Wmid)) ∧
    (∃ st2, create_circle_or_sphere Wmid "A" "A_B" "circle" 3
        = some (true, st2) ∧
      st2.points = Wmid.points ∧ st2.segments = Wmid.segments ∧
      st2.circles_and_spheres = Wmid.circles_and_spheres ++
        [("circle" ++ "_" ++ toString 3,
          ⟨"A", Real.sqrt (((2:ℝ) - 0) ^ 2 + ((4:ℝ) - 0) ^ 2 +
            ((6:ℝ) - 0) ^ 2), "#FFA500", "dashed"⟩)]) := by
  have h := construction_engine_effects Wmid
  refine ⟨?_, ?_, ?_, ?_, ?_, ?_, ?_, ?_⟩
  · exact h.1 "X" "A_B" "perp" 1 (Or.inl rfl)
  · exact h.2.1 "A" "A_B" "perp" 2 ⟨0, 0, 0⟩ ⟨"A", "B", "#0000FF", "solid"⟩
      ⟨0, 0, 0⟩ ⟨2, 4, 6⟩ rfl rfl rfl rfl rfl
  · exact h.2.2.1 "A" "Zseg" "parallel" 1 (Or.inr rfl)
  · exact h.2.2.2.1 "A" "A_B" "parallel" 2 ⟨0, 0, 0⟩ ⟨"A", "B", "#0000FF", "solid"⟩
      ⟨0, 0, 0⟩ ⟨2, 4, 6⟩ rfl rfl rfl rfl rfl
  · exact h.2.2.2.2.1 "Zseg" "mid" 1 rfl
  · exact h.2.2.2.2.2.1 "A_B" "mid" 9 ⟨"A", "B", "#0000FF", "solid"⟩
      ⟨0, 0, 0⟩ ⟨2, 4, 6⟩ rfl rfl rfl rfl
  · exact h.2.2.2.2.2.2.1 "X" "A_B" "circle" 1 (Or.inl rfl)
  · exact h.2.2.2.2.2.2.2 "A" "A_B" "circle" 3 ⟨0, 0, 0⟩
      ⟨"A", "B", "#0000FF", "solid"⟩ ⟨0, 0, 0⟩ ⟨2, 4, 6⟩ rfl rfl rfl rfl rfl

/-- Concrete instance of `vector_angle_spec`: on the nonzero vectors
`(1,0,0)` and `(0,1,0)` the angle is defined and lies in [0, 180]. -/
theorem vector_angle_spec_witness :
    ∃ θ, vector_angle ⟨1, 0, 0⟩ ⟨0, 1, 0⟩ = some θ ∧ 0 ≤ θ ∧ θ ≤ 180 := by
  have h1 : (⟨1, 0, 0⟩ : Vec3) ≠ ⟨0, 0, 0⟩ := by
    intro hc
    have := congrArg Vec3.x hc
    norm_num at this
  have h2 : (⟨0, 1, 0⟩ : Vec3) ≠ ⟨0, 0, 0⟩ := by
    intro hc
    have := congrArg Vec3.y hc
    norm_num at this
  obtain ⟨θ, hθ⟩ := (vector_angle_spec ⟨1, 0, 0⟩ ⟨0, 1, 0⟩).2.1 h1 h2
  exact ⟨θ, hθ, (vector_angle_spec ⟨1, 0, 0⟩ ⟨0, 1, 0⟩).2.2 θ hθ⟩

end GA
